import Mathlib

/-!
Shallow embedding of `src/jdy25mbt.py`, the JDY-25M BLE configuration module.

Python `bytes` values are modelled as `List Nat` (each element a byte value),
the `self._values` dictionary as an association list, and the cooperative GLib
event loop as explicit processing of a finite trace of loop events.  The
`on_timeout` callback of `_wait_with_timeout` is deep-embedded as a small
statement language together with Python's compile-time local-name scoping
rule, because its behaviour hinges on that rule.
-/

/-- Byte strings (`bytes` in Python) as lists of byte values. -/
abbrev Bytes := List Nat

/-- Models `struct.unpack('>H', bs)[0]`: big-endian 16-bit unsigned decode of
exactly two bytes; `none` models the `struct.error` raised for any other
length. -/
def unpack_be_u16 : Bytes → Option Nat
  | [b0, b1] => some (b0 * 256 + b1)
  | _ => none

/-- Models `struct.pack('>H', n)`: big-endian 16-bit unsigned encode; `none`
models the `struct.error` raised when `n` does not fit in 16 bits. -/
def pack_be_u16 (n : Nat) : Option Bytes :=
  if n < 65536 then some [n / 256, n % 256] else none

/-- Models `struct.unpack('>HBB', bs)` (src/jdy25mbt.py:278): a big-endian u16
followed by two single bytes; requires exactly four bytes. -/
def unpack_be_HBB : Bytes → Option (Nat × Nat × Nat)
  | [b0, b1, b2, b3] => some (b0 * 256 + b1, b2, b3)
  | _ => none

/-- Models `struct.unpack('>BH', bs)` (src/jdy25mbt.py:288): a single byte
followed by a big-endian u16; requires exactly three bytes. -/
def unpack_be_BH : Bytes → Option (Nat × Nat)
  | [b0, b1, b2] => some (b0, b1 * 256 + b2)
  | _ => none

/-- The `Role` enum (src/jdy25mbt.py:167-178). -/
inductive Role
  | TRANSPARENT_SLAVE
  | TRANSPARENT_MASTER
  | BLE_PROBE
  | IBEACON
  | IBEACON_PROBE
  | MESH_NETWORK
  | MULTI_MASTER
  | MULTI_SLAVE
  | KEY_LABEL_DETECTION
deriving DecidableEq

/-- The `.value` ordinal of each `Role` variant (src/jdy25mbt.py:170-178). -/
def Role.value : Role → Nat
  | .TRANSPARENT_SLAVE => 0
  | .TRANSPARENT_MASTER => 1
  | .BLE_PROBE => 2
  | .IBEACON => 3
  | .IBEACON_PROBE => 4
  | .MESH_NETWORK => 5
  | .MULTI_MASTER => 6
  | .MULTI_SLAVE => 7
  | .KEY_LABEL_DETECTION => 8

/-- Enum lookup by value, `Role(n)` in Python; `none` models the `ValueError`
raised when no variant has ordinal `n`. -/
def Role.ofValue : Nat → Option Role
  | 0 => some .TRANSPARENT_SLAVE
  | 1 => some .TRANSPARENT_MASTER
  | 2 => some .BLE_PROBE
  | 3 => some .IBEACON
  | 4 => some .IBEACON_PROBE
  | 5 => some .MESH_NETWORK
  | 6 => some .MULTI_MASTER
  | 7 => some .MULTI_SLAVE
  | 8 => some .KEY_LABEL_DETECTION
  | _ => none

/-- The `PasswordType` enum (src/jdy25mbt.py:180-185). -/
inductive PasswordType
  | NONE
  | CONNECTION
  | CONNECTION_AND_BINDING
deriving DecidableEq

/-- The `.value` ordinal of each `PasswordType` variant. -/
def PasswordType.value : PasswordType → Nat
  | .NONE => 0
  | .CONNECTION => 1
  | .CONNECTION_AND_BINDING => 2

/-- Enum lookup by value, `PasswordType(n)` in Python. -/
def PasswordType.ofValue : Nat → Option PasswordType
  | 0 => some .NONE
  | 1 => some .CONNECTION
  | 2 => some .CONNECTION_AND_BINDING
  | _ => none

/-- The `BaudRate` enum (src/jdy25mbt.py:187-196); ordinals 2-8 are
non-contiguous with 0. -/
inductive BaudRate
  | B2400
  | B4800
  | B9600
  | B19200
  | B38400
  | B57600
  | B115200
deriving DecidableEq

/-- The `.value` ordinal of each `BaudRate` variant (src/jdy25mbt.py:190-196). -/
def BaudRate.value : BaudRate → Nat
  | .B2400 => 2
  | .B4800 => 3
  | .B9600 => 4
  | .B19200 => 5
  | .B38400 => 6
  | .B57600 => 7
  | .B115200 => 8

/-- Enum lookup by value, `BaudRate(n)` in Python. -/
def BaudRate.ofValue : Nat → Option BaudRate
  | 2 => some .B2400
  | 3 => some .B4800
  | 4 => some .B9600
  | 5 => some .B19200
  | 6 => some .B38400
  | 7 => some .B57600
  | 8 => some .B115200
  | _ => none

/-- Model of `KeyParam` (src/jdy25mbt.py:198-204).  The `full_duplex` field is
annotated `bool` in the source but receives the raw `B`-unpacked byte at
runtime, so it is modelled as a byte. -/
structure KeyParam where
  target_address : Nat
  output_pin : Nat
  full_duplex : Nat
deriving DecidableEq

/-- Model of `LearnerParam` (src/jdy25mbt.py:206-211). -/
structure LearnerParam where
  input_pin : Nat
  sender_address : Nat
deriving DecidableEq

/-- Surrogate code points, which `str.encode('utf-8')` refuses. -/
def isSurrogate (c : Nat) : Bool := 0xD800 ≤ c && c ≤ 0xDFFF

/-- Code points that a Python `str` can hold and encode to UTF-8. -/
def validCodepoint (c : Nat) : Bool := c < 0x110000 && !isSurrogate c

/-- UTF-8 encoding of a single code point (used by `name.encode('utf-8')`,
src/jdy25mbt.py:309). -/
def utf8EncodeChar (c : Nat) : Bytes :=
  if c < 0x80 then [c]
  else if c < 0x800 then [0xC0 + c / 64, 0x80 + c % 64]
  else if c < 0x10000 then [0xE0 + c / 4096, 0x80 + c / 64 % 64, 0x80 + c % 64]
  else [0xF0 + c / 0x40000, 0x80 + c / 4096 % 64, 0x80 + c / 64 % 64, 0x80 + c % 64]

/-- Models `str.encode('utf-8')`: `none` models the `UnicodeEncodeError` raised
for surrogate code points. -/
def utf8Encode (s : List Nat) : Option Bytes :=
  if s.all validCodepoint then some (s.flatMap utf8EncodeChar) else none

/-- Whether a byte is a UTF-8 continuation byte. -/
def isCont (b : Nat) : Bool := 0x80 ≤ b && b < 0xC0

/-- Tail of a two-byte UTF-8 sequence whose leading byte is `b`. -/
def utf8Step1 (b : Nat) : Bytes → Option (Nat × Bytes)
  | b1 :: rest =>
    if isCont b1 then
      let c := (b - 0xC0) * 64 + (b1 - 0x80)
      if c < 0x80 then none else some (c, rest)
    else none
  | [] => none

/-- Tail of a three-byte UTF-8 sequence whose leading byte is `b`. -/
def utf8Step2 (b : Nat) : Bytes → Option (Nat × Bytes)
  | b1 :: b2 :: rest =>
    if isCont b1 && isCont b2 then
      let c := (b - 0xE0) * 4096 + (b1 - 0x80) * 64 + (b2 - 0x80)
      if c < 0x800 then none
      else if isSurrogate c then none
      else some (c, rest)
    else none
  | _ => none

/-- Tail of a four-byte UTF-8 sequence whose leading byte is `b`. -/
def utf8Step3 (b : Nat) : Bytes → Option (Nat × Bytes)
  | b1 :: b2 :: b3 :: rest =>
    if isCont b1 && isCont b2 && isCont b3 then
      let c := (b - 0xF0) * 0x40000 + (b1 - 0x80) * 4096 + (b2 - 0x80) * 64 + (b3 - 0x80)
      if c < 0x10000 then none
      else if c < 0x110000 then some (c, rest)
      else none
    else none
  | _ => none

/-- Decodes one code point from the front of a strict UTF-8 byte string:
rejects stray continuation bytes, truncated sequences, overlong encodings,
surrogates and code points above `0x10FFFF`. -/
def utf8DecodeStep : Bytes → Option (Nat × Bytes)
  | [] => none
  | b :: rest =>
    if b < 0x80 then some (b, rest)
    else if b < 0xC0 then none
    else if b < 0xE0 then utf8Step1 b rest
    else if b < 0xF0 then utf8Step2 b rest
    else if b < 0xF8 then utf8Step3 b rest
    else none

/-- Fuelled decoding loop; `utf8Decode` passes fuel `bs.length`, which always
suffices because each step consumes at least one byte. -/
def utf8DecodeLoop : Nat → Bytes → Option (List Nat)
  | _, [] => some []
  | 0, _ :: _ => none
  | fuel + 1, b :: rest =>
    match utf8DecodeStep (b :: rest) with
    | none => none
    | some x => (utf8DecodeLoop fuel x.2).map (x.1 :: ·)

/-- Models strict `bytes.decode('utf-8')` (`str(bs, 'utf-8')`,
src/jdy25mbt.py:231). -/
def utf8Decode (bs : Bytes) : Option (List Nat) := utf8DecodeLoop bs.length bs

/-- Models strict `str(bs, 'ascii')` (src/jdy25mbt.py:228): every byte must be
below `0x80`; the resulting text's code points equal the bytes. -/
def ascii_decode (bs : Bytes) : Option (List Nat) :=
  if bs.all (· < 0x80) then some bs else none

/-- The six ASCII whitespace bytes removed by `bytes.rstrip()`. -/
def isPyWhitespace (b : Nat) : Bool :=
  b == 0x20 || b == 0x09 || b == 0x0A || b == 0x0D || b == 0x0B || b == 0x0C

/-- Models `bs.rstrip()` (src/jdy25mbt.py:228): trailing ASCII whitespace
removed. -/
def rstrip_bytes (bs : Bytes) : Bytes :=
  (bs.reverse.dropWhile isPyWhitespace).reverse

/-- Models `bs.split(b'=', 1)[-1]` (src/jdy25mbt.py:228): with `maxsplit=1`
the list's last element is everything after the FIRST `=` (byte `0x3D`) when
one occurs, and the whole input otherwise. -/
def split_after_first_eq (bs : Bytes) : Bytes :=
  if bs.contains 0x3D then (bs.dropWhile (fun b => b != 0x3D)).drop 1 else bs

/-- Comparison definition following the spec's words ("taking only the value
after the last `=`"), for the refinement check of the module-version decode:
everything after the LAST `=` when one occurs, the whole input otherwise. -/
def spec_split_after_last_eq (bs : Bytes) : Bytes :=
  (bs.reverse.takeWhile (fun b => b != 0x3D)).reverse

/-- The `self._values` dictionary: command code to most recent payload. -/
abbrev ValueMap := List (Nat × Bytes)

/-- Dictionary lookup, `vs[c]` / `c in vs`. -/
def vget (vs : ValueMap) (c : Nat) : Option Bytes :=
  (vs.find? (fun p => p.1 == c)).map (·.2)

/-- Dictionary removal, `vs.pop(c, None)`. -/
def vpop (vs : ValueMap) (c : Nat) : ValueMap :=
  vs.filter (fun p => p.1 != c)

/-- Dictionary assignment, `vs[c] = b`. -/
def vset (vs : ValueMap) (c : Nat) (b : Bytes) : ValueMap :=
  (c, b) :: vpop vs c

/-- The state of one `JDYCharacteristicValueCache` session together with the
frames the transport has received.  `default_timeout` is the constructor
argument stored at src/jdy25mbt.py:348; `writes` collects every frame passed
to `self._mesh.write_value`; `cbErrors` counts callbacks whose exception GLib
printed and swallowed. -/
structure CacheState where
  default_timeout : Option ℚ
  values : ValueMap
  writes : List Bytes
  cbErrors : Nat
deriving DecidableEq

/-- A fresh session state: no default timeout, empty cache, no writes. -/
def st0 : CacheState :=
  { default_timeout := none, values := [], writes := [], cbErrors := 0 }

/-- Replaces only the stored (and never consulted) `default_timeout` field. -/
def setDT (d : Option ℚ) (st : CacheState) : CacheState :=
  { st with default_timeout := d }

/-- The observable part of the session state: everything except the stored
`default_timeout`. -/
def obs (st : CacheState) : ValueMap × List Bytes × Nat :=
  (st.values, st.writes, st.cbErrors)

/-- Models `self._values.pop(cmd, None)` (src/jdy25mbt.py:406 and 415). -/
def clear_entry (cmd : Nat) (st : CacheState) : CacheState :=
  { st with values := vpop st.values cmd }

/-- Models `self._mesh.write_value(frame)` (src/jdy25mbt.py:407 and 416): the
transport records the written frame. -/
def issue_write (frame : Bytes) (st : CacheState) : CacheState :=
  { st with writes := st.writes ++ [frame] }

/-- Python error kinds the embedded code can raise; `blocked` is not an
exception but the model's name for a wait that never returns because its
event trace is exhausted. -/
inductive PyErr
  | unboundLocalError
  | typeError
  | structError
  | assertionError
  | keyError
  | indexError
  | valueError
  | unicodeDecodeError
  | timeoutError
  | blocked
deriving DecidableEq

/-- Models the value handling of
`JDYCharacteristicValueCache._on_props_changed` (src/jdy25mbt.py:381-395) from
the point where the raw value `v` has been obtained; the interface-name filter
and the property-dictionary plumbing in lines 384-392 are not represented.
Returns the updated state and whether `self._adp.quit()` was called; `none`
models the `struct.error` raised when `v` has exactly one byte.  Note that the
guard in the source is `if v:` on the WHOLE raw value, so a two-byte value
(command code followed by nothing) is recorded with payload `[]`. -/
def on_props_changed_value (st : CacheState) (v : Bytes) : Option (CacheState × Bool) :=
  if v = [] then some (st, false)
  else
    match unpack_be_u16 (v.take 2) with
    | none => none
    | some code => some ({ st with values := vset st.values code (v.drop 2) }, true)

/-- One observable occurrence on the GLib loop while a wait is in progress:
either a characteristic value-change notification delivering raw value `v`,
or the firing of the armed `GLib.timeout_add_seconds` timer. -/
inductive Ev
  | notif (v : Bytes)
  | timerFires
deriving DecidableEq

/-- Variable names occurring in the body of `on_timeout`
(src/jdy25mbt.py:484-488). -/
inductive VarName
  | tosrc
  | timedout
deriving DecidableEq

/-- Values the deep-embedded callback manipulates: `None` or an int. -/
inductive PyVal
  | noneV
  | intV (n : Nat)
deriving DecidableEq

/-- Expressions of the deep-embedded callback body. -/
inductive PyExpr
  | name (x : VarName)
  | noneLit
deriving DecidableEq

/-- Statements of the `on_timeout` callback body (src/jdy25mbt.py:484-488),
deep-embedded so that Python's function scoping applies faithfully:
`assign x e` is `x = e`; `sourceRemove e` is `GLib.source_remove(e)`;
`appendTrue x` is `x.append(True)` (a mutation of the list object, not an
assignment to the name); `quit` is `adp.quit()`. -/
inductive PyStmt
  | assign (x : VarName) (e : PyExpr)
  | sourceRemove (e : PyExpr)
  | appendTrue (x : VarName)
  | quit
deriving DecidableEq

/-- Python determines a function's local names at compile time: every name
that is the target of an assignment anywhere in the body (and is not declared
`nonlocal` or `global`) is local throughout the body. -/
def assignedNames : List PyStmt → List VarName
  | [] => []
  | .assign x _ :: rest => x :: assignedNames rest
  | _ :: rest => assignedNames rest

/-- The locals of `_wait_with_timeout` (src/jdy25mbt.py:482-483) that the
nested `on_timeout` callback refers to: `tosrc` (the armed GLib source id, or
`None`) and `timedout` (modelled as a flag: whether the list is non-empty). -/
structure WaitLocals where
  tosrc : Option Nat
  timedout : Bool
deriving DecidableEq

/-- The callback's execution state: its local bindings, the enclosing wait
locals, the source ids passed to `GLib.source_remove`, and whether
`adp.quit()` has been called. -/
structure CbState where
  locals : List (VarName × PyVal)
  w : WaitLocals
  removed : List Nat
  quitCalled : Bool
deriving DecidableEq

/-- Reading a name from the enclosing `_wait_with_timeout` scope. -/
def enclosingVal (w : WaitLocals) : VarName → PyVal
  | .tosrc =>
    match w.tosrc with
    | none => .noneV
    | some n => .intV n
  | .timedout => .noneV

/-- Writing a name in the enclosing scope (only possible under `nonlocal`). -/
def writeEnclosing (w : WaitLocals) (x : VarName) (v : PyVal) : WaitLocals :=
  match x with
  | .tosrc =>
    { w with
      tosrc :=
        match v with
        | .noneV => none
        | .intV n => some n }
  | .timedout => w

/-- Name lookup inside the callback: a name assigned somewhere in the body and
not declared `nonlocal` is local, and reading it before its assignment has run
raises `UnboundLocalError`; any other name resolves in the enclosing scope. -/
def lookupVar (body : List PyStmt) (nonlocals : List VarName) (cb : CbState) (x : VarName) :
    Except PyErr PyVal :=
  if x ∈ nonlocals then .ok (enclosingVal cb.w x)
  else if x ∈ assignedNames body then
    match cb.locals.find? (fun p => p.1 == x) with
    | some p => .ok p.2
    | none => .error .unboundLocalError
  else .ok (enclosingVal cb.w x)

/-- Expression evaluation in the deep-embedded callback. -/
def evalExpr (body : List PyStmt) (nonlocals : List VarName) (cb : CbState) :
    PyExpr → Except PyErr PyVal
  | .name x => lookupVar body nonlocals cb x
  | .noneLit => .ok .noneV

/-- Single-statement execution in the deep-embedded callback.
`GLib.source_remove(None)` raises `TypeError`. -/
def execStmt (body : List PyStmt) (nonlocals : List VarName) (cb : CbState) :
    PyStmt → Except PyErr CbState
  | .assign x e =>
    match evalExpr body nonlocals cb e with
    | .error er => .error er
    | .ok v =>
      if x ∈ nonlocals then .ok { cb with w := writeEnclosing cb.w x v }
      else .ok { cb with locals := (x, v) :: cb.locals.filter (fun p => p.1 != x) }
  | .sourceRemove e =>
    match evalExpr body nonlocals cb e with
    | .error er => .error er
    | .ok (.intV n) => .ok { cb with removed := cb.removed ++ [n] }
    | .ok .noneV => .error .typeError
  | .appendTrue _ => .ok { cb with w := { cb.w with timedout := true } }
  | .quit => .ok { cb with quitCalled := true }

/-- Sequential execution, stopping at the first raised exception. -/
def execStmts (body : List PyStmt) (nonlocals : List VarName) :
    List PyStmt → CbState → Except PyErr CbState
  | [], cb => .ok cb
  | s :: rest, cb =>
    match execStmt body nonlocals cb s with
    | .error er => .error er
    | .ok cb2 => execStmts body nonlocals rest cb2

/-- The body of `on_timeout` (src/jdy25mbt.py:484-488). -/
def on_timeout_body : List PyStmt :=
  [ .sourceRemove (.name .tosrc),
    .assign .tosrc .noneLit,
    .appendTrue .timedout,
    .quit ]

/-- The callback `on_timeout` declares no `nonlocal` (or `global`) names in the source. -/
def on_timeout_nonlocals : List VarName := []

/-- Running the `on_timeout` callback against the enclosing wait locals. -/
def run_on_timeout (w : WaitLocals) : Except PyErr CbState :=
  execStmts on_timeout_body on_timeout_nonlocals on_timeout_body
    { locals := [], w := w, removed := [], quitCalled := false }

/-- One `adp.run()` call: the GLib loop dispatches events until some callback
calls `adp.quit()`.  The notification callback quits exactly when it records a
value; a callback that raises has its exception printed and swallowed by the
GLib dispatcher (counted in `cbErrors`) and does not quit.  `Sum.inl` returns
the final state when the trace is exhausted with no quit (the real loop would
keep blocking). -/
def runUntilQuit (w : WaitLocals) (st : CacheState) :
    List Ev → CacheState ⊕ ((WaitLocals × CacheState) × List Ev)
  | [] => .inl st
  | ev :: rest =>
    match ev with
    | .notif v =>
      match on_props_changed_value st v with
      | none => runUntilQuit w { st with cbErrors := st.cbErrors + 1 } rest
      | some (st2, true) => .inr ((w, st2), rest)
      | some (st2, false) => runUntilQuit w st2 rest
    | .timerFires =>
      if w.tosrc.isSome then
        match run_on_timeout w with
        | .error _ => runUntilQuit w { st with cbErrors := st.cbErrors + 1 } rest
        | .ok cb =>
          if cb.quitCalled then .inr ((cb.w, st), rest)
          else runUntilQuit cb.w st rest
      else runUntilQuit w st rest

/-- Outcomes of the wait primitive over a finite trace. -/
inductive WaitOutcome
  | sat
  | timedOutErr
  | outOfEvents
deriving DecidableEq

/-- The `while not cond(): adp.run(); if timedout: raise TimeoutError` loop of
`_wait_with_timeout` (src/jdy25mbt.py:494-497), specialised to the condition
`lambda: cmd in self._values` passed by `wait_for` (src/jdy25mbt.py:400).  The
fuel argument only bounds the number of loop iterations; `wait_for` passes
enough for any trace. -/
def waitLoop (cmd : Nat) : Nat → WaitLocals → CacheState → List Ev →
    WaitOutcome × WaitLocals × CacheState × List Ev
  | 0, w, st, evs => (.outOfEvents, w, st, evs)
  | fuel + 1, w, st, evs =>
    if (vget st.values cmd).isSome then (.sat, w, st, evs)
    else
      match runUntilQuit w st evs with
      | .inl stEnd => (.outOfEvents, w, stEnd, [])
      | .inr ((w2, st2), rest) =>
        if w2.timedout then (.timedOutErr, w2, st2, rest)
        else waitLoop cmd fuel w2 st2 rest

/-- Models the Python truthiness test `if timeout:` (src/jdy25mbt.py:490):
`None` and `0` are falsy, so they arm no timer. -/
def wwt_arms_timer (timeout : Option ℚ) : Bool :=
  match timeout with
  | none => false
  | some t => t != 0

/-- Models `JDYCharacteristicValueCache.wait_for` (src/jdy25mbt.py:397-400) through
`_wait_with_timeout` (src/jdy25mbt.py:479-503): arms a timer when the timeout
is truthy (the GLib source id is modelled as `1`), then drives the loop. -/
def wait_for (cmd : Nat) (timeout : Option ℚ) (st : CacheState) (events : List Ev) :
    WaitOutcome × WaitLocals × CacheState × List Ev :=
  waitLoop cmd (events.length + 1)
    { tosrc := if wwt_arms_timer timeout then some 1 else none, timedout := false }
    st events

namespace JDYCharacteristicValueCache

/-- Models `JDYCharacteristicValueCache.read` (src/jdy25mbt.py:402-409): packs the
command code (a `struct.error` for a code outside 16 bits propagates before
any state change), pops any cached entry for the code, writes the two-byte
frame, waits for the code to appear, then returns `self._values[cmd]` without
removing it. -/
def read (cmd : Nat) (read_timeout : Option ℚ) (st : CacheState) (events : List Ev) :
    Except PyErr Bytes × CacheState × List Ev :=
  match pack_be_u16 cmd with
  | none => (.error .structError, st, events)
  | some cmdb =>
    let st2 := issue_write cmdb (clear_entry cmd st)
    match wait_for cmd read_timeout st2 events with
    | (.sat, _, st3, rest) =>
      match vget st3.values cmd with
      | some p => (.ok p, st3, rest)
      | none => (.error .keyError, st3, rest)
    | (.timedOutErr, _, st3, rest) => (.error .timeoutError, st3, rest)
    | (.outOfEvents, _, st3, rest) => (.error .blocked, st3, rest)

/-- Models `JDYCharacteristicValueCache.write` (src/jdy25mbt.py:411-416): packs the
code, pops any cached entry for it, writes code plus data, and does not
wait. -/
def write (cmd : Nat) (data : Bytes) (st : CacheState) : Except PyErr Unit × CacheState :=
  match pack_be_u16 cmd with
  | none => (.error .structError, st)
  | some cmdb => (.ok (), issue_write (cmdb ++ data) (clear_entry cmd st))

end JDYCharacteristicValueCache

/-- Discriminates the timeout failure among `read` results. -/
def isTimeoutErr : Except PyErr Bytes → Bool
  | .error .timeoutError => true
  | _ => false

namespace Device

/-- Payload of `Device.write_role` (src/jdy25mbt.py:328): `bytes([role.value])`. -/
def write_role_payload (r : Role) : Bytes := [r.value]

/-- Decoding step of `Device.read_role` (src/jdy25mbt.py:252):
`Role(payload[0])`; `none` models the `IndexError`/`ValueError`. -/
def read_role_decode (p : Bytes) : Option Role := p.head? >>= Role.ofValue

/-- Payload of `Device.write_password_type` (src/jdy25mbt.py:312). -/
def write_password_type_payload (t : PasswordType) : Bytes := [t.value]

/-- Decoding step of `Device.read_password_type` (src/jdy25mbt.py:237). -/
def read_password_type_decode (p : Bytes) : Option PasswordType :=
  p.head? >>= PasswordType.ofValue

/-- Payload of `Device.write_baud_rate` (src/jdy25mbt.py:315). -/
def write_baud_rate_payload (b : BaudRate) : Bytes := [b.value]

/-- Decoding step of `Device.read_baud_rate` (src/jdy25mbt.py:240). -/
def read_baud_rate_decode (p : Bytes) : Option BaudRate :=
  p.head? >>= BaudRate.ofValue

/-- Models `Device.read_role` (src/jdy25mbt.py:251-252): reads code `0xC109` with the
default (absent) timeout, then decodes byte 0 as a `Role`. -/
def read_role (st : CacheState) (events : List Ev) : Except PyErr Role × CacheState :=
  match JDYCharacteristicValueCache.read 0xC109 none st events with
  | (.ok p, st2, _) =>
    match p.head? with
    | none => (.error .indexError, st2)
    | some b =>
      match Role.ofValue b with
      | some r => (.ok r, st2)
      | none => (.error .valueError, st2)
  | (.error e, st2, _) => (.error e, st2)

/-- Decoding step of `Device.read_module_software_version`
(src/jdy25mbt.py:228): `str(p.rstrip().split(b'=', 1)[-1], 'ascii')`. -/
def read_module_software_version_decode (p : Bytes) : Option (List Nat) :=
  ascii_decode (split_after_first_eq (rstrip_bytes p))

/-- Models `Device.read_module_software_version` (src/jdy25mbt.py:227-228): reads
code `0xC101` with the default (absent) timeout, then decodes. -/
def read_module_software_version (st : CacheState) (events : List Ev) :
    Except PyErr (List Nat) × CacheState :=
  match JDYCharacteristicValueCache.read 0xC101 none st events with
  | (.ok p, st2, _) =>
    match read_module_software_version_decode p with
    | some s => (.ok s, st2)
    | none => (.error .unicodeDecodeError, st2)
  | (.error e, st2, _) => (.error e, st2)

/-- Models `Device.read_key_param` (src/jdy25mbt.py:276-278): `assert 1 <= index <= 5`
runs before any transport call; on success reads `0xC303 + index` and unpacks
`'>HBB'`. -/
def read_key_param (index : Int) (st : CacheState) (events : List Ev) :
    Except PyErr KeyParam × CacheState :=
  if 1 ≤ index ∧ index ≤ 5 then
    match JDYCharacteristicValueCache.read (0xC303 + index).toNat none st events with
    | (.ok p, st2, _) =>
      match unpack_be_HBB p with
      | some x => (.ok ⟨x.1, x.2.1, x.2.2⟩, st2)
      | none => (.error .structError, st2)
    | (.error e, st2, _) => (.error e, st2)
  else (.error .assertionError, st)

/-- Models `Device.read_learner_param` (src/jdy25mbt.py:286-288): `assert 1 <= index
<= 5` runs before any transport call; on success reads `0xC30A + index` and
unpacks `'>BH'`. -/
def read_learner_param (index : Int) (st : CacheState) (events : List Ev) :
    Except PyErr LearnerParam × CacheState :=
  if 1 ≤ index ∧ index ≤ 5 then
    match JDYCharacteristicValueCache.read (0xC30A + index).toNat none st events with
    | (.ok p, st2, _) =>
      match unpack_be_BH p with
      | some x => (.ok ⟨x.1, x.2⟩, st2)
      | none => (.error .structError, st2)
    | (.error e, st2, _) => (.error e, st2)
  else (.error .assertionError, st)

end Device

/-- Whether processing a notification with raw value `v` records an entry (and
therefore quits the loop): exactly when `v` carries at least the two code
bytes. -/
def notifRecords (v : Bytes) : Bool := (unpack_be_u16 (v.take 2)).isSome

deriving instance DecidableEq for Except

theorem vget_nil (c : Nat) : vget [] c = none := rfl

theorem vget_cons (p : Nat × Bytes) (vs : ValueMap) (c : Nat) :
    vget (p :: vs) c = if p.1 = c then some p.2 else vget vs c := by
  by_cases h : p.1 = c
  · simp [vget, List.find?_cons_of_pos, h]
  · simp [vget, List.find?_cons_of_neg, h]

theorem vget_vpop (vs : ValueMap) (c c' : Nat) :
    vget (vpop vs c) c' = if c' = c then none else vget vs c' := by
  induction vs with
  | nil => simp [vpop, vget_nil]
  | cons p vs ih =>
    by_cases hp : p.1 = c
    · have h1 : vpop (p :: vs) c = vpop vs c := by
        simp [vpop, List.filter_cons, hp]
      rw [h1, ih, vget_cons]
      by_cases hc : c' = c
      · simp [hc]
      · have h2 : ¬ p.1 = c' := by rw [hp]; exact fun h => hc h.symm
        simp [hc, h2]
    · have h1 : vpop (p :: vs) c = p :: vpop vs c := by
        simp [vpop, List.filter_cons, hp]
      rw [h1, vget_cons, vget_cons, ih]
      by_cases hpc : p.1 = c'
      · have h2 : ¬ c' = c := fun h => hp (by rw [hpc, h])
        simp [hpc, h2]
      · simp [hpc]

theorem vget_vset (vs : ValueMap) (c : Nat) (b : Bytes) (c' : Nat) :
    vget (vset vs c b) c' = if c' = c then some b else vget vs c' := by
  unfold vset
  rw [vget_cons, vget_vpop]
  by_cases h : c' = c
  · simp [h]
  · have h2 : ¬ c = c' := fun hh => h hh.symm
    simp [h, h2]

/-- The `on_timeout` callback raises `UnboundLocalError` for every enclosing
state: the assignment `tosrc = None` in its body makes `tosrc` local to the
callback (no `nonlocal` declaration exists), so the very first statement reads
an unassigned local. -/
theorem run_on_timeout_eq (w : WaitLocals) :
    run_on_timeout w = .error .unboundLocalError := rfl

theorem on_props_changed_value_nil (st : CacheState) :
    on_props_changed_value st [] = some (st, false) := rfl

theorem on_props_changed_value_single (st : CacheState) (b0 : Nat) :
    on_props_changed_value st [b0] = none := rfl

theorem on_props_changed_value_cons (st : CacheState) (b0 b1 : Nat) (t : Bytes) :
    on_props_changed_value st (b0 :: b1 :: t) =
      some ({ st with values := vset st.values (b0 * 256 + b1) t }, true) := rfl

/-- Decomposition of one `adp.run()` that returned (some callback quit the
loop): the wait locals are untouched (the buggy timer callback can neither
set `timedout` nor clear `tosrc`), the quit was caused by a recording
notification, the events before it record nothing, and the state change is
exactly that one recording. -/
theorem runUntilQuit_split (w : WaitLocals) (st : CacheState) (evs : List Ev)
    (w' : WaitLocals) (st' : CacheState) (rest : List Ev)
    (h : runUntilQuit w st evs = .inr ((w', st'), rest)) :
    w' = w ∧ ∃ pre v code, evs = pre ++ Ev.notif v :: rest ∧
      (∀ u, Ev.notif u ∈ pre → notifRecords u = false) ∧
      unpack_be_u16 (v.take 2) = some code ∧
      st'.values = vset st.values code (v.drop 2) ∧
      st'.writes = st.writes := by
  induction evs generalizing st with
  | nil => simp [runUntilQuit] at h
  | cons ev evs ih =>
    cases ev with
    | notif v =>
      rcases v with _ | ⟨b0, _ | ⟨b1, t2⟩⟩
      · simp only [runUntilQuit, on_props_changed_value_nil] at h
        obtain ⟨hw, pre, v', code, hevs, hpre, hcode, hvals, hwr⟩ := ih st h
        refine ⟨hw, Ev.notif [] :: pre, v', code, by rw [hevs]; rfl, ?_, hcode, hvals, hwr⟩
        intro u hu
        rcases List.mem_cons.mp hu with hu | hu
        · cases hu; rfl
        · exact hpre u hu
      · simp only [runUntilQuit, on_props_changed_value_single] at h
        obtain ⟨hw, pre, v', code, hevs, hpre, hcode, hvals, hwr⟩ :=
          ih { st with cbErrors := st.cbErrors + 1 } h
        refine ⟨hw, Ev.notif [b0] :: pre, v', code, by rw [hevs]; rfl, ?_, hcode, hvals, hwr⟩
        intro u hu
        rcases List.mem_cons.mp hu with hu | hu
        · cases hu; rfl
        · exact hpre u hu
      · simp only [runUntilQuit, on_props_changed_value_cons] at h
        simp only [Sum.inr.injEq, Prod.mk.injEq] at h
        obtain ⟨⟨hw, hst⟩, hrest⟩ := h
        subst hst
        refine ⟨hw.symm, [], b0 :: b1 :: t2, b0 * 256 + b1, by rw [hrest]; rfl, ?_, rfl, rfl, rfl⟩
        intro u hu
        simp at hu
    | timerFires =>
      simp only [runUntilQuit, run_on_timeout_eq] at h
      split at h
      · obtain ⟨hw, pre, v', code, hevs, hpre, hcode, hvals, hwr⟩ :=
          ih { st with cbErrors := st.cbErrors + 1 } h
        refine ⟨hw, Ev.timerFires :: pre, v', code, by rw [hevs]; rfl, ?_, hcode, hvals, hwr⟩
        intro u hu
        rcases List.mem_cons.mp hu with hu | hu
        · cases hu
        · exact hpre u hu
      · obtain ⟨hw, pre, v', code, hevs, hpre, hcode, hvals, hwr⟩ := ih st h
        refine ⟨hw, Ev.timerFires :: pre, v', code, by rw [hevs]; rfl, ?_, hcode, hvals, hwr⟩
        intro u hu
        rcases List.mem_cons.mp hu with hu | hu
        · cases hu
        · exact hpre u hu

/-- When one `adp.run()` exhausts the trace without any quit, no notification
in the trace records, and the cache and write log are unchanged. -/
theorem runUntilQuit_inl (w : WaitLocals) (st : CacheState) (evs : List Ev)
    (stEnd : CacheState)
    (h : runUntilQuit w st evs = .inl stEnd) :
    (∀ u, Ev.notif u ∈ evs → notifRecords u = false) ∧
    stEnd.values = st.values ∧ stEnd.writes = st.writes := by
  induction evs generalizing st with
  | nil =>
    simp only [runUntilQuit, Sum.inl.injEq] at h
    exact ⟨by simp, by rw [← h], by rw [← h]⟩
  | cons ev evs ih =>
    cases ev with
    | notif v =>
      rcases v with _ | ⟨b0, _ | ⟨b1, t2⟩⟩
      · simp only [runUntilQuit, on_props_changed_value_nil] at h
        obtain ⟨hpre, hvals, hwr⟩ := ih st h
        refine ⟨?_, hvals, hwr⟩
        intro u hu
        rcases List.mem_cons.mp hu with hu | hu
        · cases hu; rfl
        · exact hpre u hu
      · simp only [runUntilQuit, on_props_changed_value_single] at h
        obtain ⟨hpre, hvals, hwr⟩ := ih { st with cbErrors := st.cbErrors + 1 } h
        refine ⟨?_, hvals, hwr⟩
        intro u hu
        rcases List.mem_cons.mp hu with hu | hu
        · cases hu; rfl
        · exact hpre u hu
      · simp only [runUntilQuit, on_props_changed_value_cons] at h
        cases h
    | timerFires =>
      simp only [runUntilQuit, run_on_timeout_eq] at h
      split at h
      · obtain ⟨hpre, hvals, hwr⟩ := ih { st with cbErrors := st.cbErrors + 1 } h
        refine ⟨?_, hvals, hwr⟩
        intro u hu
        rcases List.mem_cons.mp hu with hu | hu
        · cases hu
        · exact hpre u hu
      · obtain ⟨hpre, hvals, hwr⟩ := ih st h
        refine ⟨?_, hvals, hwr⟩
        intro u hu
        rcases List.mem_cons.mp hu with hu | hu
        · cases hu
        · exact hpre u hu

/-- The wait loop can only raise `TimeoutError` if `timedout` is already set:
the buggy callback never sets it, so a wait that enters with `timedout` clear
never raises. -/
theorem waitLoop_no_timedOutErr (cmd fuel : Nat) (w : WaitLocals) (st : CacheState)
    (evs : List Ev) (hw : w.timedout = false) :
    (waitLoop cmd fuel w st evs).1 ≠ WaitOutcome.timedOutErr := by
  induction fuel generalizing w st evs with
  | zero => simp [waitLoop]
  | succ fuel ih =>
    by_cases hsat : (vget st.values cmd).isSome = true
    · simp [waitLoop, hsat]
    · have hsf : (vget st.values cmd).isSome = false := by
        rwa [Bool.not_eq_true] at hsat
      rcases hrun : runUntilQuit w st evs with stEnd | ⟨⟨w2, st2⟩, rest⟩
      · simp [waitLoop, hsf, hrun]
      · have hw2 : w2 = w := (runUntilQuit_split w st evs w2 st2 rest hrun).1
        simp only [waitLoop, hsf, hrun, Bool.false_eq_true, if_false]
        rw [hw2, hw]
        simpa using ih w st2 rest hw

/-- Wherever the wait loop's final cache maps the awaited code, the payload is
either the one already present when the loop started or one recorded from a
notification in the trace. -/
theorem waitLoop_source (cmd fuel : Nat) (w : WaitLocals) (st : CacheState)
    (evs : List Ev) (p : Bytes)
    (h : vget (waitLoop cmd fuel w st evs).2.2.1.values cmd = some p) :
    vget st.values cmd = some p ∨
      ∃ v, Ev.notif v ∈ evs ∧ unpack_be_u16 (v.take 2) = some cmd ∧ p = v.drop 2 := by
  induction fuel generalizing w st evs with
  | zero => exact .inl h
  | succ fuel ih =>
    by_cases hsat : (vget st.values cmd).isSome = true
    · simp only [waitLoop, hsat, if_true] at h
      exact .inl h
    · have hsf : (vget st.values cmd).isSome = false := by
        rwa [Bool.not_eq_true] at hsat
      rcases hrun : runUntilQuit w st evs with stEnd | ⟨⟨w2, st2⟩, rest⟩
      · simp only [waitLoop, hsf, Bool.false_eq_true, if_false, hrun] at h
        obtain ⟨_, hvalsE, _⟩ := runUntilQuit_inl w st evs stEnd hrun
        rw [hvalsE] at h
        exact .inl h
      · simp only [waitLoop, hsf, Bool.false_eq_true, if_false, hrun] at h
        obtain ⟨hw2, pre, v, code, hevs, hpre, hcode, hvals, hwr⟩ :=
          runUntilQuit_split w st evs w2 st2 rest hrun
        have hmemv : Ev.notif v ∈ evs := by rw [hevs]; simp
        by_cases htd : w2.timedout = true
        · rw [if_pos htd] at h
          rw [hvals, vget_vset] at h
          by_cases hcc : cmd = code
          · rw [if_pos hcc] at h
            exact .inr ⟨v, hmemv, by rw [hcc]; exact hcode, (Option.some.inj h).symm⟩
          · rw [if_neg hcc] at h
            exact absurd (show (vget st.values cmd).isSome = true by rw [h]; rfl) hsat
        · rw [if_neg htd] at h
          rcases ih w2 st2 rest h with hl | ⟨v', hv', hcode', hp'⟩
          · rw [hvals, vget_vset] at hl
            by_cases hcc : cmd = code
            · rw [if_pos hcc] at hl
              exact .inr ⟨v, hmemv, by rw [hcc]; exact hcode, (Option.some.inj hl).symm⟩
            · rw [if_neg hcc] at hl
              exact absurd (show (vget st.values cmd).isSome = true by rw [hl]; rfl) hsat
          · exact .inr ⟨v', by rw [hevs]; simp [hv'], hcode', hp'⟩

/-- With `timedout` clear on entry (as `_wait_with_timeout` initialises it),
the loop satisfies exactly when the awaited code is already cached or some
notification in the trace carries it. -/
theorem waitLoop_sat_iff (cmd : Nat) (w : WaitLocals) (fuel : Nat) (st : CacheState)
    (evs : List Ev) (hw : w.timedout = false) (hfuel : evs.length < fuel) :
    ((waitLoop cmd fuel w st evs).1 = WaitOutcome.sat ↔
      (vget st.values cmd).isSome = true ∨
        ∃ v, Ev.notif v ∈ evs ∧ unpack_be_u16 (v.take 2) = some cmd) := by
  induction fuel generalizing st evs with
  | zero => exact absurd hfuel (Nat.not_lt_zero _)
  | succ fuel ih =>
    by_cases hsat : (vget st.values cmd).isSome = true
    · simp [waitLoop, hsat]
    · have hsf : (vget st.values cmd).isSome = false := by
        rwa [Bool.not_eq_true] at hsat
      rcases hrun : runUntilQuit w st evs with stEnd | ⟨⟨w2, st2⟩, rest⟩
      · have hnone := runUntilQuit_inl w st evs stEnd hrun
        simp only [waitLoop, hsf, Bool.false_eq_true, if_false, hrun]
        constructor
        · intro hcontr
          exact absurd hcontr (by decide)
        · rintro (hl | ⟨v, hv, hcode⟩)
          · exact hl.elim
          · have := hnone.1 v hv
            rw [notifRecords, hcode] at this
            cases this
      · obtain ⟨hw2, pre, v, code, hevs, hpre, hcode, hvals, hwr⟩ :=
          runUntilQuit_split w st evs w2 st2 rest hrun
        have hmemv : Ev.notif v ∈ evs := by rw [hevs]; simp
        have hrl : rest.length < fuel := by
          have : evs.length = pre.length + (rest.length + 1) := by
            rw [hevs]; simp [List.length_append]
          omega
        have htd : w2.timedout = false := by rw [hw2, hw]
        simp only [waitLoop, hsf, Bool.false_eq_true, if_false, hrun, htd]
        rw [hw2]
        rw [ih st2 rest hrl]
        constructor
        · rintro (hl | ⟨v', hv', hcode'⟩)
          · rw [hvals, vget_vset] at hl
            by_cases hcc : cmd = code
            · exact .inr ⟨v, hmemv, by rw [hcc]; exact hcode⟩
            · rw [if_neg hcc] at hl
              rw [hl] at hsf; cases hsf
          · exact .inr ⟨v', by rw [hevs]; simp [hv'], hcode'⟩
        · rintro (hl | ⟨v0, hv0, hcode0⟩)
          · exact hl.elim
          · rw [hevs] at hv0
            rcases List.mem_append.mp hv0 with hv0 | hv0
            · have := hpre v0 hv0
              rw [notifRecords, hcode0] at this
              cases this
            · rcases List.mem_cons.mp hv0 with hv0 | hv0
              · left
                have hveq : v0 = v := by injection hv0
                rw [hveq] at hcode0
                rw [hcode] at hcode0
                have hcc : code = cmd := Option.some.inj hcode0
                rw [hvals, vget_vset, if_pos hcc.symm]
                rfl
              · exact .inr ⟨v0, hv0, hcode0⟩

/-- When the wait loop reports satisfaction, the awaited code is present in
the final cache (so `read`'s final `self._values[cmd]` cannot raise). -/
theorem waitLoop_sat_isSome (cmd fuel : Nat) (w : WaitLocals) (st : CacheState)
    (evs : List Ev)
    (h : (waitLoop cmd fuel w st evs).1 = WaitOutcome.sat) :
    (vget (waitLoop cmd fuel w st evs).2.2.1.values cmd).isSome = true := by
  induction fuel generalizing w st evs with
  | zero => simp [waitLoop] at h
  | succ fuel ih =>
    by_cases hsat : (vget st.values cmd).isSome = true
    · simp only [waitLoop, hsat, if_true]
    · have hsf : (vget st.values cmd).isSome = false := by
        rwa [Bool.not_eq_true] at hsat
      rcases hrun : runUntilQuit w st evs with stEnd | ⟨⟨w2, st2⟩, rest⟩
      · simp [waitLoop, hsf, hrun] at h
      · simp only [waitLoop, hsf, Bool.false_eq_true, if_false, hrun] at h ⊢
        by_cases htd : w2.timedout = true
        · rw [if_pos htd] at h
          simp at h
        · rw [if_neg htd] at h ⊢
          exact ih w2 st2 rest h

theorem on_props_changed_value_setDT (d : Option ℚ) (st : CacheState) (v : Bytes) :
    on_props_changed_value (setDT d st) v =
      (on_props_changed_value st v).map (fun r => (setDT d r.1, r.2)) := by
  rcases v with _ | ⟨b0, _ | ⟨b1, t2⟩⟩ <;> rfl

theorem runUntilQuit_setDT (d : Option ℚ) (w : WaitLocals) (st : CacheState) (evs : List Ev) :
    runUntilQuit w (setDT d st) evs =
      Sum.map (setDT d) (fun x => ((x.1.1, setDT d x.1.2), x.2)) (runUntilQuit w st evs) := by
  induction evs generalizing st with
  | nil => rfl
  | cons ev evs ih =>
    cases ev with
    | notif v =>
      rcases v with _ | ⟨b0, _ | ⟨b1, t2⟩⟩
      · simp only [runUntilQuit, on_props_changed_value_nil]
        exact ih st
      · simp only [runUntilQuit, on_props_changed_value_single]
        exact ih { st with cbErrors := st.cbErrors + 1 }
      · simp only [runUntilQuit, on_props_changed_value_cons]
        rfl
    | timerFires =>
      simp only [runUntilQuit, run_on_timeout_eq]
      by_cases harm : w.tosrc.isSome = true
      · rw [if_pos harm, if_pos harm]
        exact ih { st with cbErrors := st.cbErrors + 1 }
      · rw [if_neg harm, if_neg harm]
        exact ih st

theorem waitLoop_setDT (cmd fuel : Nat) (d : Option ℚ) (w : WaitLocals) (st : CacheState)
    (evs : List Ev) :
    waitLoop cmd fuel w (setDT d st) evs =
      (fun x => (x.1, x.2.1, setDT d x.2.2.1, x.2.2.2)) (waitLoop cmd fuel w st evs) := by
  induction fuel generalizing w st evs with
  | zero => rfl
  | succ fuel ih =>
    by_cases hsat : (vget st.values cmd).isSome = true
    · have hsat2 : (vget (setDT d st).values cmd).isSome = true := hsat
      simp [waitLoop, hsat, hsat2]
    · have hsf : (vget st.values cmd).isSome = false := by
        rwa [Bool.not_eq_true] at hsat
      have hsf2 : (vget (setDT d st).values cmd).isSome = false := hsf
      rcases hrun : runUntilQuit w st evs with stEnd | ⟨⟨w2, st2⟩, rest⟩
      · have hrun2 : runUntilQuit w (setDT d st) evs = .inl (setDT d stEnd) := by
          rw [runUntilQuit_setDT, hrun]; rfl
        simp [waitLoop, hsf, hsf2, hrun, hrun2]
      · have hrun2 : runUntilQuit w (setDT d st) evs = .inr ((w2, setDT d st2), rest) := by
          rw [runUntilQuit_setDT, hrun]; rfl
        simp only [waitLoop, hsf, hsf2, Bool.false_eq_true, if_false, hrun, hrun2]
        by_cases htd : w2.timedout = true
        · rw [if_pos htd, if_pos htd]
        · rw [if_neg htd, if_neg htd]
          exact ih w2 st2 rest

theorem wait_for_setDT (cmd : Nat) (t d : Option ℚ) (st : CacheState) (evs : List Ev) :
    wait_for cmd t (setDT d st) evs =
      (fun x => (x.1, x.2.1, setDT d x.2.2.1, x.2.2.2)) (wait_for cmd t st evs) := by
  unfold wait_for
  exact waitLoop_setDT cmd (evs.length + 1) d _ st evs

theorem vget_setDT (d : Option ℚ) (st : CacheState) (c : Nat) :
    vget (setDT d st).values c = vget st.values c := rfl

theorem read_setDT (cmd : Nat) (t d : Option ℚ) (st : CacheState) (evs : List Ev) :
    JDYCharacteristicValueCache.read cmd t (setDT d st) evs =
      ((JDYCharacteristicValueCache.read cmd t st evs).1,
       setDT d (JDYCharacteristicValueCache.read cmd t st evs).2.1,
       (JDYCharacteristicValueCache.read cmd t st evs).2.2) := by
  rcases hpack : pack_be_u16 cmd with _ | cmdb
  · simp only [JDYCharacteristicValueCache.read, hpack]
  · have hw : wait_for cmd t (issue_write cmdb (clear_entry cmd (setDT d st))) evs =
        (fun x => (x.1, x.2.1, setDT d x.2.2.1, x.2.2.2))
          (wait_for cmd t (issue_write cmdb (clear_entry cmd st)) evs) :=
      wait_for_setDT cmd t d (issue_write cmdb (clear_entry cmd st)) evs
    rcases hwf : wait_for cmd t (issue_write cmdb (clear_entry cmd st)) evs with
      ⟨out, w3, st3, rest⟩
    rw [hwf] at hw
    cases out with
    | sat =>
      rcases hvv : vget st3.values cmd with _ | p <;>
        simp only [JDYCharacteristicValueCache.read, hpack, hw, hwf, vget_setDT, hvv]
    | timedOutErr =>
      simp only [JDYCharacteristicValueCache.read, hpack, hw, hwf]
    | outOfEvents =>
      simp only [JDYCharacteristicValueCache.read, hpack, hw, hwf]

theorem write_setDT (cmd : Nat) (data : Bytes) (d : Option ℚ) (st : CacheState) :
    JDYCharacteristicValueCache.write cmd data (setDT d st) =
      ((JDYCharacteristicValueCache.write cmd data st).1,
       setDT d (JDYCharacteristicValueCache.write cmd data st).2) := by
  unfold JDYCharacteristicValueCache.write
  rcases hpack : pack_be_u16 cmd with _ | cmdb <;> rfl

theorem read_role_setDT (d : Option ℚ) (st : CacheState) (evs : List Ev) :
    Device.read_role (setDT d st) evs =
      ((Device.read_role st evs).1, setDT d (Device.read_role st evs).2) := by
  rcases hX : JDYCharacteristicValueCache.read 0xC109 none st evs with ⟨r, st2, rest⟩
  cases r with
  | ok p =>
    rcases hh : p.head? with _ | b
    · simp only [Device.read_role, read_setDT, hX, hh]
    · rcases ho : Role.ofValue b with _ | r0 <;>
        simp only [Device.read_role, read_setDT, hX, hh, ho]
  | error e => simp only [Device.read_role, read_setDT, hX]

theorem read_module_software_version_setDT (d : Option ℚ) (st : CacheState) (evs : List Ev) :
    Device.read_module_software_version (setDT d st) evs =
      ((Device.read_module_software_version st evs).1,
       setDT d (Device.read_module_software_version st evs).2) := by
  rcases hX : JDYCharacteristicValueCache.read 0xC101 none st evs with ⟨r, st2, rest⟩
  cases r with
  | ok p =>
    rcases hh : Device.read_module_software_version_decode p with _ | s <;>
      simp only [Device.read_module_software_version, read_setDT, hX, hh]
  | error e => simp only [Device.read_module_software_version, read_setDT, hX]

theorem read_key_param_setDT (index : Int) (d : Option ℚ) (st : CacheState) (evs : List Ev) :
    Device.read_key_param index (setDT d st) evs =
      ((Device.read_key_param index st evs).1,
       setDT d (Device.read_key_param index st evs).2) := by
  by_cases hi : 1 ≤ index ∧ index ≤ 5
  · rcases hX : JDYCharacteristicValueCache.read (0xC303 + index).toNat none st evs with
      ⟨r, st2, rest⟩
    cases r with
    | ok p =>
      rcases hh : unpack_be_HBB p with _ | x <;>
        simp only [Device.read_key_param, if_pos hi, read_setDT, hX, hh]
    | error e => simp only [Device.read_key_param, if_pos hi, read_setDT, hX]
  · simp only [Device.read_key_param, if_neg hi]

theorem read_learner_param_setDT (index : Int) (d : Option ℚ) (st : CacheState) (evs : List Ev) :
    Device.read_learner_param index (setDT d st) evs =
      ((Device.read_learner_param index st evs).1,
       setDT d (Device.read_learner_param index st evs).2) := by
  by_cases hi : 1 ≤ index ∧ index ≤ 5
  · rcases hX : JDYCharacteristicValueCache.read (0xC30A + index).toNat none st evs with
      ⟨r, st2, rest⟩
    cases r with
    | ok p =>
      rcases hh : unpack_be_BH p with _ | x <;>
        simp only [Device.read_learner_param, if_pos hi, read_setDT, hX, hh]
    | error e => simp only [Device.read_learner_param, if_pos hi, read_setDT, hX]
  · simp only [Device.read_learner_param, if_neg hi]

/-- C1 counterexample: the notification frame `[0xC1, 0x05]` — command code
`0xC105` followed by an EMPTY payload — is recorded by the handler (as entry
`0xC105 ↦ []`, with `adp.quit()` called), because the source guards on the
whole raw value (`if v:`), not on the payload after the code.  This refutes
the claim that such a frame leaves no entry in the cache. -/
theorem C1_counterexample :
    vget st0.values 0xC105 = none ∧
    on_props_changed_value st0 [0xC1, 0x05] =
      some ({ st0 with values := [(0xC105, [])] }, true) := by
  exact ⟨rfl, by decide⟩

/-- C1 (amended): the handler ignores only a fully empty notification value
(no record, no quit); any value of length at least two — including a bare
command code with empty payload — is recorded, keyed by the big-endian code
in the first two bytes, valued by the remaining (possibly empty) bytes. -/
theorem C1_amended_thm (st : CacheState) (v : Bytes) :
    (v = [] → on_props_changed_value st v = some (st, false)) ∧
    (∀ b0 b1 t, v = b0 :: b1 :: t →
      on_props_changed_value st v =
        some ({ st with values := vset st.values (b0 * 256 + b1) t }, true)) := by
  constructor
  · intro h; subst h; rfl
  · intro b0 b1 t h; subst h; rfl

/-- Witness for `C1_amended_thm` at an empty frame and a code-only frame. -/
theorem C1_amended_witness :
    on_props_changed_value st0 [] = some (st0, false) ∧
    on_props_changed_value st0 [0xC1, 0x05] =
      some ({ st0 with values := vset st0.values (0xC1 * 256 + 0x05) [] }, true) :=
  ⟨(C1_amended_thm st0 []).1 rfl, (C1_amended_thm st0 [0xC1, 0x05]).2 0xC1 0x05 [] rfl⟩

/-- C2 counterexample: after the successful `read(0xC105)` that consumed the
notification `C1 05 04`, the cache still holds entry `0xC105 ↦ [0x04]`
(line 409 returns `self._values[cmd]` without popping), and conversely
`write(0xC105)` on a state holding an entry for that code removes the entry
before the frame goes out (line 415).  Both halves of the claim fail. -/
theorem C2_counterexample :
    JDYCharacteristicValueCache.read 0xC105 none st0 [Ev.notif [0xC1, 0x05, 0x04]] =
      (.ok [0x04],
       { default_timeout := none, values := [(0xC105, [0x04])],
         writes := [[0xC1, 0x05]], cbErrors := 0 }, []) ∧
    JDYCharacteristicValueCache.write 0xC105 []
        { st0 with values := [(0xC105, [0x07])] } =
      (.ok (),
       { default_timeout := none, values := [],
         writes := [[0xC1, 0x05]], cbErrors := 0 }) := by
  constructor <;> decide

/-- C2 (amended): a successful `read(code)` returns the cached payload while
leaving the entry in place — immediately after the read, the cache still maps
the code to the returned payload (the entry is only cleared again at the
start of the next `read`/`write` for that code); `write(code, data)` removes
any cached entry for its code before writing and never waits. -/
theorem C2_amended_thm (cmd : Nat) (t : Option ℚ) (st : CacheState) (events : List Ev)
    (p : Bytes) (st' : CacheState) (rest : List Ev) (data : Bytes)
    (hcmd : cmd < 65536)
    (h : JDYCharacteristicValueCache.read cmd t st events = (.ok p, st', rest)) :
    vget st'.values cmd = some p ∧
    vget (JDYCharacteristicValueCache.write cmd data st).2.values cmd = none := by
  have hpk : pack_be_u16 cmd = some [cmd / 256, cmd % 256] := by
    simp [pack_be_u16, hcmd]
  constructor
  · simp only [JDYCharacteristicValueCache.read, hpk] at h
    rcases hwf : wait_for cmd t
        (issue_write [cmd / 256, cmd % 256] (clear_entry cmd st)) events with
      ⟨out, w3, st3, rest3⟩
    rw [hwf] at h
    cases out with
    | sat =>
      rcases hv : vget st3.values cmd with _ | q <;> simp only [hv] at h
      · simp at h
      · obtain ⟨hq, hst, hr⟩ := by simpa using h
        rw [← hst, hv, hq]
    | timedOutErr => simp at h
    | outOfEvents => simp at h
  · simp only [JDYCharacteristicValueCache.write, hpk]
    simp [issue_write, clear_entry, vget_vpop]

/-- Witness for `C2_amended_thm` at the concrete run of `C2_counterexample`. -/
theorem C2_amended_witness :
    vget ({ default_timeout := none, values := [(0xC105, [0x04])],
            writes := [[0xC1, 0x05]], cbErrors := 0 } : CacheState).values 0xC105 =
      some [0x04] ∧
    vget (JDYCharacteristicValueCache.write 0xC105 [0x07] st0).2.values 0xC105 = none :=
  C2_amended_thm 0xC105 none st0 [Ev.notif [0xC1, 0x05, 0x04]] [0x04]
    { default_timeout := none, values := [(0xC105, [0x04])],
      writes := [[0xC1, 0x05]], cbErrors := 0 }
    [] [0x07] (by decide) (by decide)

/-- C4 (code bug witnessed): `on_timeout` raises `UnboundLocalError` for any
enclosing state — the assignment `tosrc = None` in its body makes `tosrc`
local to the callback and no `nonlocal` declaration exists, so the first
statement `GLib.source_remove(tosrc)` reads an unassigned local.  GLib prints
and swallows the exception, `timedout` is never appended and `adp.quit()` is
never called, so `read(0xC101, timeout=1)` never raises `TimeoutError`: over
the trace in which the armed timer fires, the read keeps blocking with the
swallowed-exception count incremented and the write frame already issued. -/
theorem C4_bug_eval :
    run_on_timeout { tosrc := some 1, timedout := false } = .error .unboundLocalError ∧
    JDYCharacteristicValueCache.read 0xC101 (some 1) st0 [Ev.timerFires] =
      (.error .blocked,
       { default_timeout := none, values := [], writes := [[0xC1, 0x01]],
         cbErrors := 1 }, []) := by
  exact ⟨rfl, by decide⟩

/-- C5: single-byte enum decoding is exact — whenever `ofValue` succeeds, the
returned variant's ordinal is the given byte (so no default is substituted),
every defined ordinal decodes to its variant, ordinal `9` has no `Role`; and
on the device pipeline a `0xC109` response byte `0x05` yields
`Role.MESH_NETWORK` while byte `0x09` fails with the decode error
(`ValueError` from the enum constructor). -/
theorem C5_thm :
    (∀ n : Nat, (Role.ofValue n).elim True (fun r => Role.value r = n)) ∧
    (∀ r : Role, Role.ofValue (Role.value r) = some r) ∧
    (∀ n : Nat, (PasswordType.ofValue n).elim True (fun x => PasswordType.value x = n)) ∧
    (∀ x : PasswordType, PasswordType.ofValue (PasswordType.value x) = some x) ∧
    (∀ n : Nat, (BaudRate.ofValue n).elim True (fun x => BaudRate.value x = n)) ∧
    (∀ x : BaudRate, BaudRate.ofValue (BaudRate.value x) = some x) ∧
    Role.ofValue 9 = none ∧
    (Device.read_role st0 [Ev.notif [0xC1, 0x09, 0x05]]).1 = .ok Role.MESH_NETWORK ∧
    (Device.read_role st0 [Ev.notif [0xC1, 0x09, 0x09]]).1 = .error .valueError := by
  refine ⟨?_, ?_, ?_, ?_, ?_, ?_, rfl, ?_, ?_⟩
  · intro n; rcases n with _|_|_|_|_|_|_|_|_|n <;> trivial
  · intro r; cases r <;> rfl
  · intro n; rcases n with _|_|_|n <;> trivial
  · intro x; cases x <;> rfl
  · intro n; rcases n with _|_|_|_|_|_|_|_|_|n <;> trivial
  · intro x; cases x <;> rfl
  · decide
  · decide

/-- C8: a slot index outside `[1, 5]` fails the `assert` before any transport
call: both accessors return `AssertionError` with the session state exactly
as it was — in particular the write log is unchanged, so the characteristic
received zero frames. -/
theorem C8_thm (index : Int) (st : CacheState) (events : List Ev)
    (h : ¬ (1 ≤ index ∧ index ≤ 5)) :
    Device.read_key_param index st events = (.error .assertionError, st) ∧
    Device.read_learner_param index st events = (.error .assertionError, st) := by
  constructor
  · simp only [Device.read_key_param, if_neg h]
  · simp only [Device.read_learner_param, if_neg h]

/-- Witness for `C8_thm` at indices 0 and 6. -/
theorem C8_witness :
    (Device.read_key_param 0 st0 [] = (.error .assertionError, st0) ∧
     Device.read_learner_param 0 st0 [] = (.error .assertionError, st0)) ∧
    (Device.read_key_param 6 st0 [] = (.error .assertionError, st0) ∧
     Device.read_learner_param 6 st0 [] = (.error .assertionError, st0)) :=
  ⟨C8_thm 0 st0 [] (by decide), C8_thm 6 st0 [] (by decide)⟩

/-- C3: both `read` and `write` clear any existing cache entry for their code
before the frame reaches the characteristic (the entry is absent in the state
handed to `issue_write`, and after a `write` it stays absent), and a
successful `read` returns only a payload recorded from a notification
processed during its own wait — never a value cached before the request. -/
theorem C3_thm (cmd : Nat) (t : Option ℚ) (st : CacheState) (events : List Ev)
    (p : Bytes) (st' : CacheState) (rest : List Ev) (data : Bytes)
    (hcmd : cmd < 65536)
    (h : JDYCharacteristicValueCache.read cmd t st events = (.ok p, st', rest)) :
    vget (clear_entry cmd st).values cmd = none ∧
    vget (JDYCharacteristicValueCache.write cmd data st).2.values cmd = none ∧
    ∃ v, Ev.notif v ∈ events ∧ unpack_be_u16 (v.take 2) = some cmd ∧ p = v.drop 2 := by
  have hpk : pack_be_u16 cmd = some [cmd / 256, cmd % 256] := by
    simp [pack_be_u16, hcmd]
  refine ⟨by simp [clear_entry, vget_vpop], ?_, ?_⟩
  · simp only [JDYCharacteristicValueCache.write, hpk]
    simp [issue_write, clear_entry, vget_vpop]
  · simp only [JDYCharacteristicValueCache.read, hpk] at h
    rcases hwf : wait_for cmd t
        (issue_write [cmd / 256, cmd % 256] (clear_entry cmd st)) events with
      ⟨out, w3, st3, rest3⟩
    rw [hwf] at h
    unfold wait_for at hwf
    cases out with
    | sat =>
      rcases hv : vget st3.values cmd with _ | q <;> simp only [hv] at h
      · simp at h
      · obtain ⟨hq, hst, hr⟩ := by simpa using h
        have harg : vget (waitLoop cmd (events.length + 1)
            { tosrc := if wwt_arms_timer t then some 1 else none, timedout := false }
            (issue_write [cmd / 256, cmd % 256] (clear_entry cmd st)) events).2.2.1.values
            cmd = some p := by
          rw [hwf]
          show vget st3.values cmd = some p
          rw [hv, hq]
        rcases waitLoop_source cmd (events.length + 1)
            { tosrc := if wwt_arms_timer t then some 1 else none, timedout := false }
            (issue_write [cmd / 256, cmd % 256] (clear_entry cmd st)) events p harg with
          hl | hsrc
        · have hcl : vget (issue_write [cmd / 256, cmd % 256]
              (clear_entry cmd st)).values cmd = none := by
            simp [issue_write, clear_entry, vget_vpop]
          rw [hcl] at hl
          cases hl
        · exact hsrc
    | timedOutErr => simp at h
    | outOfEvents => simp at h

/-- Witness for `C3_thm` at the concrete run of `C2_counterexample`. -/
theorem C3_witness :
    vget (clear_entry 0xC105 st0).values 0xC105 = none ∧
    vget (JDYCharacteristicValueCache.write 0xC105 [0x08] st0).2.values 0xC105 = none ∧
    ∃ v, Ev.notif v ∈ [Ev.notif [0xC1, 0x05, 0x04]] ∧
      unpack_be_u16 (v.take 2) = some 0xC105 ∧ [0x04] = v.drop 2 :=
  C3_thm 0xC105 none st0 [Ev.notif [0xC1, 0x05, 0x04]] [0x04]
    { default_timeout := none, values := [(0xC105, [0x04])],
      writes := [[0xC1, 0x05]], cbErrors := 0 }
    [] [0x08] (by decide) (by decide)

/-- C9: every modelled cache and facade operation behaves identically on two
states differing only in the stored `default_timeout` (the constructor
argument is stored at src/jdy25mbt.py:348 and never consulted again): the
results, the remaining traces and all observables of the final states agree;
and the facade's reads pass no timeout (`read_timeout` stays `None`), under
which `read` can never fail with the timeout error. -/
theorem C9_thm (d1 d2 : Option ℚ) (cmd : Nat) (t : Option ℚ) (data : Bytes)
    (index : Int) (st : CacheState) (events : List Ev) :
    ((JDYCharacteristicValueCache.read cmd t (setDT d1 st) events).1 =
       (JDYCharacteristicValueCache.read cmd t (setDT d2 st) events).1 ∧
     obs (JDYCharacteristicValueCache.read cmd t (setDT d1 st) events).2.1 =
       obs (JDYCharacteristicValueCache.read cmd t (setDT d2 st) events).2.1 ∧
     (JDYCharacteristicValueCache.read cmd t (setDT d1 st) events).2.2 =
       (JDYCharacteristicValueCache.read cmd t (setDT d2 st) events).2.2) ∧
    ((JDYCharacteristicValueCache.write cmd data (setDT d1 st)).1 =
       (JDYCharacteristicValueCache.write cmd data (setDT d2 st)).1 ∧
     obs (JDYCharacteristicValueCache.write cmd data (setDT d1 st)).2 =
       obs (JDYCharacteristicValueCache.write cmd data (setDT d2 st)).2) ∧
    ((Device.read_role (setDT d1 st) events).1 =
       (Device.read_role (setDT d2 st) events).1 ∧
     obs (Device.read_role (setDT d1 st) events).2 =
       obs (Device.read_role (setDT d2 st) events).2) ∧
    ((Device.read_module_software_version (setDT d1 st) events).1 =
       (Device.read_module_software_version (setDT d2 st) events).1 ∧
     obs (Device.read_module_software_version (setDT d1 st) events).2 =
       obs (Device.read_module_software_version (setDT d2 st) events).2) ∧
    ((Device.read_key_param index (setDT d1 st) events).1 =
       (Device.read_key_param index (setDT d2 st) events).1 ∧
     obs (Device.read_key_param index (setDT d1 st) events).2 =
       obs (Device.read_key_param index (setDT d2 st) events).2) ∧
    ((Device.read_learner_param index (setDT d1 st) events).1 =
       (Device.read_learner_param index (setDT d2 st) events).1 ∧
     obs (Device.read_learner_param index (setDT d1 st) events).2 =
       obs (Device.read_learner_param index (setDT d2 st) events).2) ∧
    isTimeoutErr (JDYCharacteristicValueCache.read cmd none st events).1 = false := by
  refine ⟨⟨?_, ?_, ?_⟩, ⟨?_, ?_⟩, ⟨?_, ?_⟩, ⟨?_, ?_⟩, ⟨?_, ?_⟩, ⟨?_, ?_⟩, ?_⟩
  · rw [read_setDT, read_setDT]
  · rw [read_setDT, read_setDT]; rfl
  · rw [read_setDT, read_setDT]
  · rw [write_setDT, write_setDT]
  · rw [write_setDT, write_setDT]; rfl
  · rw [read_role_setDT, read_role_setDT]
  · rw [read_role_setDT, read_role_setDT]; rfl
  · rw [read_module_software_version_setDT, read_module_software_version_setDT]
  · rw [read_module_software_version_setDT, read_module_software_version_setDT]; rfl
  · rw [read_key_param_setDT, read_key_param_setDT]
  · rw [read_key_param_setDT, read_key_param_setDT]; rfl
  · rw [read_learner_param_setDT, read_learner_param_setDT]
  · rw [read_learner_param_setDT, read_learner_param_setDT]; rfl
  · rcases hpack : pack_be_u16 cmd with _ | cmdb
    · simp [JDYCharacteristicValueCache.read, hpack, isTimeoutErr]
    · rcases hwf : wait_for cmd none (issue_write cmdb (clear_entry cmd st)) events with
        ⟨out, w3, st3, rest3⟩
      have hout : out ≠ WaitOutcome.timedOutErr := by
        have hne := waitLoop_no_timedOutErr cmd (events.length + 1)
          { tosrc := if wwt_arms_timer none then some 1 else none, timedout := false }
          (issue_write cmdb (clear_entry cmd st)) events rfl
        unfold wait_for at hwf
        rw [hwf] at hne
        exact hne
      cases out with
      | sat =>
        rcases hv : vget st3.values cmd with _ | q <;>
          simp [JDYCharacteristicValueCache.read, hpack, hwf, hv, isTimeoutErr]
      | timedOutErr => exact absurd rfl hout
      | outOfEvents => simp [JDYCharacteristicValueCache.read, hpack, hwf, isTimeoutErr]

/-- C10: with `timeout=None` or `timeout=0` the truthiness test `if timeout:`
arms no timer; the wait can only end satisfied or keep blocking (never with
the timeout error), and it is satisfied exactly when the awaited code is
already cached or some notification in the trace carries it — an unbounded
wait on the condition. -/
theorem C10_thm (cmd : Nat) (t : Option ℚ) (st : CacheState) (events : List Ev)
    (ht : t = none ∨ t = some 0) :
    wwt_arms_timer t = false ∧
    ((wait_for cmd t st events).1 = WaitOutcome.sat ∨
     (wait_for cmd t st events).1 = WaitOutcome.outOfEvents) ∧
    ((wait_for cmd t st events).1 = WaitOutcome.sat ↔
      (vget st.values cmd).isSome = true ∨
        ∃ v, Ev.notif v ∈ events ∧ unpack_be_u16 (v.take 2) = some cmd) := by
  have harm : wwt_arms_timer t = false := by
    rcases ht with h | h <;> subst h <;> rfl
  refine ⟨harm, ?_, ?_⟩
  · have hne : (wait_for cmd t st events).1 ≠ WaitOutcome.timedOutErr :=
      waitLoop_no_timedOutErr cmd (events.length + 1)
        { tosrc := if wwt_arms_timer t then some 1 else none, timedout := false }
        st events rfl
    rcases hout : (wait_for cmd t st events).1 with _ | _ | _
    · exact .inl rfl
    · exact absurd hout hne
    · exact .inr rfl
  · exact waitLoop_sat_iff cmd
      { tosrc := if wwt_arms_timer t then some 1 else none, timedout := false }
      (events.length + 1) st events rfl (Nat.lt_succ_self _)

/-- Witness for `C10_thm` at `timeout=0` on a fresh state and empty trace. -/
theorem C10_witness :
    wwt_arms_timer (some 0) = false ∧
    ((wait_for 0xC101 (some 0) st0 []).1 = WaitOutcome.sat ∨
     (wait_for 0xC101 (some 0) st0 []).1 = WaitOutcome.outOfEvents) ∧
    ((wait_for 0xC101 (some 0) st0 []).1 = WaitOutcome.sat ↔
      (vget st0.values 0xC101).isSome = true ∨
        ∃ v, Ev.notif v ∈ ([] : List Ev) ∧ unpack_be_u16 (v.take 2) = some 0xC101) :=
  C10_thm 0xC101 (some 0) st0 [] (.inr rfl)

theorem dropWhile_append_neg (p : Nat → Bool) (xs ys : Bytes) (y : Nat) (hy : p y = false) :
    (xs ++ y :: ys).dropWhile p = xs.dropWhile p ++ y :: ys := by
  induction xs with
  | nil => simp [List.dropWhile_cons, hy]
  | cons a xs ih =>
    by_cases ha : p a = true
    · simp only [List.cons_append, List.dropWhile_cons, ha, if_true]
      exact ih
    · have ha2 : p a = false := by rwa [Bool.not_eq_true] at ha
      simp [List.dropWhile_cons, ha2]

theorem dropWhile_all_pos (p : Nat → Bool) (xs ys : Bytes) (hx : ∀ a ∈ xs, p a = true) :
    (xs ++ ys).dropWhile p = ys.dropWhile p := by
  induction xs with
  | nil => rfl
  | cons a xs ih =>
    have ha := hx a (by simp)
    simp only [List.cons_append, List.dropWhile_cons, ha, if_true]
    exact ih fun b hb => hx b (by simp [hb])

theorem rstrip_append_eq (pre post : Bytes) :
    rstrip_bytes (pre ++ 0x3D :: post) = pre ++ 0x3D :: rstrip_bytes post := by
  unfold rstrip_bytes
  rw [List.reverse_append]
  have h1 : (0x3D :: post).reverse = post.reverse ++ 0x3D :: [] := by simp
  rw [h1, List.append_assoc]
  have h2 : ([0x3D] ++ pre.reverse : Bytes) = 0x3D :: pre.reverse := rfl
  rw [h2, dropWhile_append_neg isPyWhitespace post.reverse pre.reverse 0x3D rfl]
  simp

theorem rstrip_mem (bs : Bytes) (b : Nat) (h : b ∈ rstrip_bytes bs) : b ∈ bs := by
  unfold rstrip_bytes at h
  rw [List.mem_reverse] at h
  have := List.dropWhile_sublist (p := isPyWhitespace) (l := bs.reverse)
  have hmem := this.mem h
  rwa [List.mem_reverse] at hmem

theorem split_after_first_eq_append (pre t : Bytes) (hpre : (0x3D : Nat) ∉ pre) :
    split_after_first_eq (pre ++ 0x3D :: t) = t := by
  unfold split_after_first_eq
  have hc : (pre ++ 0x3D :: t).contains 0x3D = true := by
    rw [List.contains_iff_exists_mem_beq]
    exact ⟨0x3D, by simp, by simp⟩
  rw [if_pos hc]
  have hd : (pre ++ 0x3D :: t).dropWhile (fun b => b != 0x3D) = 0x3D :: t := by
    have hx : ∀ a ∈ pre, (a != 0x3D) = true := by
      intro a ha
      simp only [bne_iff_ne, ne_eq]
      exact fun hh => hpre (hh ▸ ha)
    rw [dropWhile_all_pos _ pre (0x3D :: t) hx]
    simp [List.dropWhile_cons]
  rw [hd]
  rfl

theorem split_after_first_eq_no (bs : Bytes) (h : (0x3D : Nat) ∉ bs) :
    split_after_first_eq bs = bs := by
  unfold split_after_first_eq
  have hc : bs.contains 0x3D = false := by
    rw [Bool.eq_false_iff]
    intro hcc
    rcases List.contains_iff_exists_mem_beq.mp hcc with ⟨a, ha, hb⟩
    rw [beq_iff_eq] at hb
    exact h (by rwa [← hb] at ha)
  have hc2 : ¬ (bs.contains 0x3D = true) := by rw [hc]; simp
  rw [if_neg hc2]

/-- C6 counterexample: on the response text `a=b=c` the source decode
(`rstrip` then `split(b'=', 1)[-1]`) yields `b=c` — the portion after the
FIRST `=` — while the spec's words ("the value after the last `=`") yield
`c`; the two differ. -/
theorem C6_counterexample :
    Device.read_module_software_version_decode [0x61, 0x3D, 0x62, 0x3D, 0x63] =
      some [0x62, 0x3D, 0x63] ∧
    ascii_decode (spec_split_after_last_eq
        (rstrip_bytes [0x61, 0x3D, 0x62, 0x3D, 0x63])) = some [0x63] ∧
    some [0x62, 0x3D, 0x63] ≠ some ([0x63] : List Nat) := by
  exact ⟨by decide, by decide, by decide⟩

/-- C6 (amended): the module-version decode trims trailing ASCII whitespace
and decodes as ASCII, and when the text contains `=` it returns only the
portion after the FIRST `=` (with that portion's own trailing whitespace
already trimmed); without any `=` the whole trimmed text is returned. -/
theorem C6_amended_thm (pre post bs : Bytes)
    (hpre : (0x3D : Nat) ∉ pre) (hbs : (0x3D : Nat) ∉ bs) :
    Device.read_module_software_version_decode (pre ++ 0x3D :: post) =
      ascii_decode (rstrip_bytes post) ∧
    Device.read_module_software_version_decode bs = ascii_decode (rstrip_bytes bs) := by
  constructor
  · unfold Device.read_module_software_version_decode
    rw [rstrip_append_eq, split_after_first_eq_append pre (rstrip_bytes post) hpre]
  · unfold Device.read_module_software_version_decode
    rw [split_after_first_eq_no (rstrip_bytes bs)
      (fun hmem => hbs (rstrip_mem bs 0x3D hmem))]

/-- Witness for `C6_amended_thm` on `V=1 ` (after the first `=`, trailing
space trimmed) and on `JDY` (no `=`). -/
theorem C6_amended_witness :
    Device.read_module_software_version_decode ([0x56] ++ 0x3D :: [0x31, 0x20]) =
      ascii_decode (rstrip_bytes [0x31, 0x20]) ∧
    Device.read_module_software_version_decode [0x4A, 0x44, 0x59] =
      ascii_decode (rstrip_bytes [0x4A, 0x44, 0x59]) :=
  C6_amended_thm [0x56] [0x31, 0x20] [0x4A, 0x44, 0x59] (by decide) (by decide)

theorem utf8DecodeStep_encode (c : Nat) (rest : Bytes) (h : validCodepoint c = true) :
    utf8DecodeStep (utf8EncodeChar c ++ rest) = some (c, rest) := by
  have hv : c < 0x110000 ∧ (c < 0xD800 ∨ 0xDFFF < c) := by
    simpa [validCodepoint, isSurrogate, Bool.and_eq_true, Bool.not_eq_true',
      decide_eq_true_eq, decide_eq_false_iff_not] using h
  obtain ⟨hmax, hsur⟩ := hv
  by_cases hc1 : c < 0x80
  · have he : utf8EncodeChar c = [c] := by simp [utf8EncodeChar, hc1]
    rw [he, List.singleton_append]
    simp only [utf8DecodeStep]
    rw [if_pos hc1]
  · by_cases hc2 : c < 0x800
    · have he : utf8EncodeChar c = [0xC0 + c / 64, 0x80 + c % 64] := by
        simp [utf8EncodeChar, hc1, hc2]
      have e1 : ¬ (0xC0 + c / 64 < 0x80) := by omega
      have e2 : ¬ (0xC0 + c / 64 < 0xC0) := by omega
      have e3 : 0xC0 + c / 64 < 0xE0 := by omega
      have e4 : isCont (0x80 + c % 64) = true := by
        simp only [isCont, Bool.and_eq_true, decide_eq_true_eq]
        omega
      have e5 : (0xC0 + c / 64 - 0xC0) * 64 + (0x80 + c % 64 - 0x80) = c := by omega
      rw [he]
      simp only [List.cons_append, List.nil_append, utf8DecodeStep]
      rw [if_neg e1, if_neg e2, if_pos e3]
      simp only [utf8Step1]
      rw [if_pos e4, e5, if_neg hc1]
    · by_cases hc3 : c < 0x10000
      · have he : utf8EncodeChar c =
            [0xE0 + c / 4096, 0x80 + c / 64 % 64, 0x80 + c % 64] := by
          simp [utf8EncodeChar, hc1, hc2, hc3]
        have e1 : ¬ (0xE0 + c / 4096 < 0x80) := by omega
        have e2 : ¬ (0xE0 + c / 4096 < 0xC0) := by omega
        have e3 : ¬ (0xE0 + c / 4096 < 0xE0) := by omega
        have e4 : 0xE0 + c / 4096 < 0xF0 := by omega
        have e5 : (isCont (0x80 + c / 64 % 64) && isCont (0x80 + c % 64)) = true := by
          simp only [isCont, Bool.and_eq_true, decide_eq_true_eq]
          omega
        have e6 : (0xE0 + c / 4096 - 0xE0) * 4096 + (0x80 + c / 64 % 64 - 0x80) * 64 +
            (0x80 + c % 64 - 0x80) = c := by omega
        have e7 : isSurrogate c = false := by
          simp only [isSurrogate, Bool.and_eq_false_iff, decide_eq_false_iff_not]
          omega
        have e8 : ¬ (isSurrogate c = true) := by rw [e7]; simp
        rw [he]
        simp only [List.cons_append, List.nil_append, utf8DecodeStep]
        rw [if_neg e1, if_neg e2, if_neg e3, if_pos e4]
        simp only [utf8Step2]
        rw [if_pos e5, e6, if_neg hc2, if_neg e8]
      · have he : utf8EncodeChar c =
            [0xF0 + c / 0x40000, 0x80 + c / 4096 % 64, 0x80 + c / 64 % 64,
             0x80 + c % 64] := by
          simp [utf8EncodeChar, hc1, hc2, hc3]
        have e1 : ¬ (0xF0 + c / 0x40000 < 0x80) := by omega
        have e2 : ¬ (0xF0 + c / 0x40000 < 0xC0) := by omega
        have e3 : ¬ (0xF0 + c / 0x40000 < 0xE0) := by omega
        have e4 : ¬ (0xF0 + c / 0x40000 < 0xF0) := by omega
        have e5 : 0xF0 + c / 0x40000 < 0xF8 := by omega
        have e6 : (isCont (0x80 + c / 4096 % 64) &&
            (isCont (0x80 + c / 64 % 64) && isCont (0x80 + c % 64))) = true := by
          simp only [isCont, Bool.and_eq_true, decide_eq_true_eq]
          omega
        have e7 : (0xF0 + c / 0x40000 - 0xF0) * 0x40000 +
            (0x80 + c / 4096 % 64 - 0x80) * 4096 +
            (0x80 + c / 64 % 64 - 0x80) * 64 + (0x80 + c % 64 - 0x80) = c := by omega
        rw [he]
        simp only [List.cons_append, List.nil_append, utf8DecodeStep]
        rw [if_neg e1, if_neg e2, if_neg e3, if_neg e4, if_pos e5]
        simp only [utf8Step3, Bool.and_assoc]
        rw [if_pos e6, e7, if_neg hc3, if_pos hmax]

theorem utf8EncodeChar_ne_nil (c : Nat) : utf8EncodeChar c ≠ [] := by
  unfold utf8EncodeChar
  split
  · simp
  · split
    · simp
    · split <;> simp

theorem utf8_round_aux (s : List Nat) (h : s.all validCodepoint = true) :
    ∀ fuel, (s.flatMap utf8EncodeChar).length ≤ fuel →
      utf8DecodeLoop fuel (s.flatMap utf8EncodeChar) = some s := by
  induction s with
  | nil =>
    intro fuel _
    cases fuel <;> rfl
  | cons c cs ih =>
    rw [List.all_cons, Bool.and_eq_true] at h
    intro fuel hfuel
    rw [List.flatMap_cons] at hfuel ⊢
    rcases hb : utf8EncodeChar c with _ | ⟨b, tl⟩
    · exact absurd hb (utf8EncodeChar_ne_nil c)
    · rw [hb] at hfuel
      rw [List.cons_append] at hfuel ⊢
      rcases fuel with _ | f
      · simp at hfuel
      · have hstep : utf8DecodeStep (b :: (tl ++ cs.flatMap utf8EncodeChar)) =
            some (c, cs.flatMap utf8EncodeChar) := by
          rw [← List.cons_append, ← hb]
          exact utf8DecodeStep_encode c _ h.1
        simp only [utf8DecodeLoop, hstep]
        have hlen : (cs.flatMap utf8EncodeChar).length ≤ f := by
          simp only [List.length_cons, List.length_append] at hfuel
          omega
        rw [ih h.2 f hlen]
        rfl

theorem utf8_round (s : List Nat) (h : s.all validCodepoint = true) :
    utf8Decode (s.flatMap utf8EncodeChar) = some s :=
  utf8_round_aux s h _ (Nat.le_refl _)

/-- C7: for each writable register the decode of the encode is the identity —
the single-byte enum registers (role, password type, baud rate) round-trip
through `bytes([v.value])` and `Enum(payload[0])`, and the broadcast name
round-trips through `str.encode('utf-8')` and `str(bs, 'utf-8')`. -/
theorem C7_thm (r : Role) (x : PasswordType) (b : BaudRate) (s : List Nat) (bs : Bytes)
    (hs : utf8Encode s = some bs) :
    Device.read_role_decode (Device.write_role_payload r) = some r ∧
    Device.read_password_type_decode (Device.write_password_type_payload x) = some x ∧
    Device.read_baud_rate_decode (Device.write_baud_rate_payload b) = some b ∧
    utf8Decode bs = some s := by
  refine ⟨?_, ?_, ?_, ?_⟩
  · cases r <;> rfl
  · cases x <;> rfl
  · cases b <;> rfl
  · unfold utf8Encode at hs
    by_cases hv : s.all validCodepoint = true
    · rw [if_pos hv] at hs
      obtain rfl := Option.some.inj hs
      exact utf8_round s hv
    · rw [if_neg hv] at hs
      cases hs

/-- Witness for `C7_thm` at concrete enum variants and the name `JDY`. -/
theorem C7_witness :
    Device.read_role_decode (Device.write_role_payload Role.MESH_NETWORK) =
      some Role.MESH_NETWORK ∧
    Device.read_password_type_decode
        (Device.write_password_type_payload PasswordType.CONNECTION) =
      some PasswordType.CONNECTION ∧
    Device.read_baud_rate_decode (Device.write_baud_rate_payload BaudRate.B115200) =
      some BaudRate.B115200 ∧
    utf8Decode [0x4A, 0x44, 0x59] = some [0x4A, 0x44, 0x59] :=
  C7_thm Role.MESH_NETWORK PasswordType.CONNECTION BaudRate.B115200
    [0x4A, 0x44, 0x59] [0x4A, 0x44, 0x59] (by decide)
